import Mathlib

/-!
# Verification of the Naver webtoon downloader core (`nava.py`)

A shallow embedding of the download/discovery pipeline of
`HighTechWebtoonDownloader` (src/nava.py) and proofs of the spec's claims
about it.

The embedding models the external world explicitly:
* the body of an HTTP response and the content of a file are `Bytes`
  (a list of byte values); only lengths are compared against the 1024-byte
  threshold, exactly as the code compares sizes;
* each GET attempt made by `fetch_download_image` is answered by an
  environment `attempts : Nat → Attempt` giving the outcome of the i-th
  attempt (a transport exception or a status code with a body);
* the filesystem state relevant to one task is the content at the final
  destination path and at its temporary sibling (`.tmp`) path, together
  with a trace of the filesystem events the function performs.
-/

namespace Nava

/-- Byte strings: response bodies and file contents. -/
abbrev Bytes := List Nat

/-- Outcome of one `client.get(url, headers=...)` call inside
`fetch_download_image`: a transport-level exception, or a completed
response with a status code and a body. -/
inductive Attempt where
  | exn : Attempt
  | resp (status : Nat) (body : Bytes) : Attempt
deriving DecidableEq

/-- Filesystem state of one download task: content at the final
destination path (`None` = absent) and at the temporary sibling path. -/
structure FileState where
  finalFile : Option Bytes
  tempFile : Option Bytes
deriving DecidableEq

/-- Filesystem events `fetch_download_image` performs, in order:
`file_path.parent.mkdir(parents=True, exist_ok=True)`, the write of the
body to the temporary path, `temp_path.rename(file_path)` and
`temp_path.unlink()`. -/
inductive FsEvent where
  | mkdirParent : FsEvent
  | writeTemp (content : Bytes) : FsEvent
  | renameTempToFinal (content : Bytes) : FsEvent
  | unlinkTemp : FsEvent
deriving DecidableEq

/-- What one call of `fetch_download_image` did: its return value
(`success`), the final filesystem state, the number of GET attempts it
made, the backoff waits (`asyncio.sleep` durations) in order, the
filesystem event trace, and the increments it applied to the
`session_stats` counters. -/
structure RunResult where
  success : Bool
  state : FileState
  attemptsMade : Nat
  waits : List Nat
  trace : List FsEvent
  downloadedInc : Nat
  failedInc : Nat
  skippedInc : Nat
deriving DecidableEq

/-- The 1024-byte size threshold of `fetch_download_image` (both the
existence check `file_size > 1024` and the body check
`temp_path.stat().st_size > 1024`). -/
def MIN_SIZE : Nat := 1024

/-- `max_retries = 5` in `fetch_download_image`. -/
def max_retries : Nat := 5

/-- Terminal result of the retry loop exhausting its attempts:
`self.session_stats['failed_downloads'] += 1; return False`. -/
def failResult (st : FileState) (nAtt : Nat) (waits : List Nat)
    (tr : List FsEvent) : RunResult :=
  { success := false, state := st, attemptsMade := nAtt, waits := waits,
    trace := tr, downloadedInc := 0, failedInc := 1, skippedInc := 0 }

/-- The body of one iteration of the retry loop, from `client.get` to the
size validation: on a transport exception or a non-200 status nothing is
written; on status 200 the parent directory is made, the body is written
to the temporary path, and then the temporary file is either renamed to
the final path (body larger than 1024 bytes: result `some body`) or
unlinked (undersized body). -/
def attemptStep (a : Attempt) (st : FileState) (tr : List FsEvent) :
    Option Bytes × FileState × List FsEvent :=
  match a with
  | Attempt.exn => (none, st, tr)
  | Attempt.resp status body =>
    if status = 200 then
      if MIN_SIZE < body.length then
        (some body, { finalFile := some body, tempFile := none },
         tr ++ [FsEvent.mkdirParent, FsEvent.writeTemp body,
                FsEvent.renameTempToFinal body])
      else
        (none, { st with tempFile := none },
         tr ++ [FsEvent.mkdirParent, FsEvent.writeTemp body,
                FsEvent.unlinkTemp])
    else (none, st, tr)

/-- The `while attempt < max_retries` loop of `fetch_download_image`,
indexed by the number `k` of iterations the guard still allows
(`k = max_retries - attempt`); `attempt` is the loop counter of the code
(it selects the attempt outcome and the backoff exponent), `nAtt` counts
the GET attempts made so far, `waits` and `tr` accumulate sleeps and
filesystem events. After a failed attempt the code does `attempt += 1`
and, if the new counter is still below `max_retries` (here: `k' ≠ 0`),
sleeps `2 ** attempt` before the next iteration; when the loop exits the
task is recorded as failed. -/
def downloadLoopAux (attempts : Nat → Attempt) :
    Nat → FileState → Nat → Nat → List Nat → List FsEvent → RunResult
  | 0, st, _attempt, nAtt, waits, tr => failResult st nAtt waits tr
  | k + 1, st, attempt, nAtt, waits, tr =>
    match attemptStep (attempts attempt) st tr with
    | (some _body, st1, tr1) =>
      { success := true, state := st1, attemptsMade := nAtt + 1,
        waits := waits, trace := tr1,
        downloadedInc := 1, failedInc := 0, skippedInc := 0 }
    | (none, st1, tr1) =>
      match k with
      | 0 => failResult st1 (nAtt + 1) waits tr1
      | k' + 1 =>
        downloadLoopAux attempts (k' + 1) st1 (attempt + 1) (nAtt + 1)
          (waits ++ [2 ^ (attempt + 1)]) tr1

/-- `HighTechWebtoonDownloader.fetch_download_image` for one task, given
the pre-existing content at the destination path and the environment
answering its GET attempts. If the destination file exists with size
above 1024 bytes the download is skipped and counted as successful
(`images_downloaded += 1`); an existing file at or below 1024 bytes is
treated as corrupted and the retry loop runs (starting at `attempt = 0`,
with `max_retries = 5` iterations allowed). -/
def fetch_download_image (existing : Option Bytes)
    (attempts : Nat → Attempt) : RunResult :=
  match existing with
  | some content =>
    if MIN_SIZE < content.length then
      { success := true,
        state := { finalFile := some content, tempFile := none },
        attemptsMade := 0, waits := [], trace := [],
        downloadedInc := 1, failedInc := 0, skippedInc := 0 }
    else
      downloadLoopAux attempts max_retries
        { finalFile := some content, tempFile := none } 0 0 [] []
  | none =>
    downloadLoopAux attempts max_retries
      { finalFile := none, tempFile := none } 0 0 [] []

/-- An attempt outcome the retry loop treats as failed: an exception, a
non-200 status, or a 200 response whose body is at most 1024 bytes. -/
def attemptFails : Attempt → Bool
  | Attempt.exn => true
  | Attempt.resp status body =>
    if status = 200 then decide (body.length ≤ MIN_SIZE) else true

/-- Renames recorded in a trace only ever move bodies strictly larger
than the 1024-byte threshold to the final path. -/
def GoodTrace (tr : List FsEvent) : Prop :=
  ∀ c, FsEvent.renameTempToFinal c ∈ tr → MIN_SIZE < c.length

/-- Invariant of the retry loop relative to the initial content `F` of
the destination path: no temporary file is left, every rename in the
trace moved a validated (large) body, and the destination either still
holds `F` or holds a body that a recorded rename put there. -/
def Inv (F : Option Bytes) (st : FileState) (tr : List FsEvent) : Prop :=
  st.tempFile = none ∧ GoodTrace tr ∧
    (st.finalFile = F ∨
      ∃ c, MIN_SIZE < c.length ∧ FsEvent.renameTempToFinal c ∈ tr ∧
        st.finalFile = some c)

theorem attemptStep_none (a : Attempt) (st : FileState) (tr : List FsEvent)
    (F : Option Bytes) (st1 : FileState) (tr1 : List FsEvent)
    (hInv : Inv F st tr)
    (h : attemptStep a st tr = (none, st1, tr1)) : Inv F st1 tr1 := by
  obtain ⟨htmp, hgood, hfin⟩ := hInv
  cases a with
  | exn =>
    simp only [attemptStep] at h
    injection h with h1 h2
    injection h2 with h2 h3
    subst h2; subst h3
    exact ⟨htmp, hgood, hfin⟩
  | resp status body =>
    simp only [attemptStep] at h
    by_cases h200 : status = 200
    · rw [if_pos h200] at h
      by_cases hlen : MIN_SIZE < body.length
      · rw [if_pos hlen] at h
        injection h with h1 h2
        exact Option.noConfusion h1
      · rw [if_neg hlen] at h
        injection h with h1 h2
        injection h2 with h2 h3
        subst h2; subst h3
        refine ⟨rfl, ?_, ?_⟩
        · intro c hc
          rcases List.mem_append.mp hc with hc | hc
          · exact hgood c hc
          · simp at hc
        · rcases hfin with hfin | ⟨c, hcl, hcm, hcf⟩
          · exact Or.inl hfin
          · exact Or.inr ⟨c, hcl, List.mem_append_left _ hcm, hcf⟩
    · rw [if_neg h200] at h
      injection h with h1 h2
      injection h2 with h2 h3
      subst h2; subst h3
      exact ⟨htmp, hgood, hfin⟩

theorem attemptStep_some (a : Attempt) (st : FileState) (tr : List FsEvent)
    (body : Bytes) (st1 : FileState) (tr1 : List FsEvent)
    (hgood : GoodTrace tr)
    (h : attemptStep a st tr = (some body, st1, tr1)) :
    MIN_SIZE < body.length ∧
      st1 = { finalFile := some body, tempFile := none } ∧ GoodTrace tr1 ∧
      FsEvent.renameTempToFinal body ∈ tr1 := by
  cases a with
  | exn =>
    simp only [attemptStep] at h
    injection h with h1 h2
    exact Option.noConfusion h1
  | resp status b =>
    simp only [attemptStep] at h
    by_cases h200 : status = 200
    · rw [if_pos h200] at h
      by_cases hlen : MIN_SIZE < b.length
      · rw [if_pos hlen] at h
        injection h with h1 h2
        injection h2 with h2 h3
        injection h1 with h1
        subst h1; subst h2; subst h3
        refine ⟨hlen, rfl, ?_, ?_⟩
        · intro c hc
          rcases List.mem_append.mp hc with hc | hc
          · exact hgood c hc
          · simp at hc
            rw [hc]
            exact hlen
        · exact List.mem_append_right _ (by simp)
      · rw [if_neg hlen] at h
        injection h with h1 h2
        exact Option.noConfusion h1
    · rw [if_neg h200] at h
      injection h with h1 h2
      exact Option.noConfusion h1

theorem downloadLoopAux_zero (attempts : Nat → Attempt) (st : FileState)
    (a n : Nat) (w : List Nat) (tr : List FsEvent) :
    downloadLoopAux attempts 0 st a n w tr = failResult st n w tr := rfl

theorem downloadLoopAux_succ_some (attempts : Nat → Attempt) (k : Nat)
    (st : FileState) (a n : Nat) (w : List Nat) (tr : List FsEvent)
    (body : Bytes) (st1 : FileState) (tr1 : List FsEvent)
    (h : attemptStep (attempts a) st tr = (some body, st1, tr1)) :
    downloadLoopAux attempts (k + 1) st a n w tr =
      { success := true, state := st1, attemptsMade := n + 1, waits := w,
        trace := tr1, downloadedInc := 1, failedInc := 0, skippedInc := 0 } := by
  rw [downloadLoopAux.eq_2, h]

theorem downloadLoopAux_one_none (attempts : Nat → Attempt) (st : FileState)
    (a n : Nat) (w : List Nat) (tr : List FsEvent)
    (st1 : FileState) (tr1 : List FsEvent)
    (h : attemptStep (attempts a) st tr = (none, st1, tr1)) :
    downloadLoopAux attempts 1 st a n w tr = failResult st1 (n + 1) w tr1 := by
  rw [downloadLoopAux.eq_2, h]

theorem downloadLoopAux_succ2_none (attempts : Nat → Attempt) (k : Nat)
    (st : FileState) (a n : Nat) (w : List Nat) (tr : List FsEvent)
    (st1 : FileState) (tr1 : List FsEvent)
    (h : attemptStep (attempts a) st tr = (none, st1, tr1)) :
    downloadLoopAux attempts (k + 1 + 1) st a n w tr =
      downloadLoopAux attempts (k + 1) st1 (a + 1) (n + 1)
        (w ++ [2 ^ (a + 1)]) tr1 := by
  rw [downloadLoopAux.eq_2, h]

/-- Main safety lemma about the retry loop: it preserves the invariant
`Inv F` (no leftover temporary file, all renames validated, destination
content is the original or a renamed validated body) and a `True` return
means the destination holds some validated body. -/
theorem downloadLoopAux_inv (attempts : Nat → Attempt) (F : Option Bytes) :
    ∀ (k : Nat) (st : FileState) (a n : Nat) (w : List Nat)
      (tr : List FsEvent), Inv F st tr →
      Inv F (downloadLoopAux attempts k st a n w tr).state
        (downloadLoopAux attempts k st a n w tr).trace ∧
      ((downloadLoopAux attempts k st a n w tr).success = true →
        ∃ c, MIN_SIZE < c.length ∧
          (downloadLoopAux attempts k st a n w tr).state.finalFile = some c) := by
  intro k
  induction k with
  | zero =>
    intro st a n w tr hInv
    rw [downloadLoopAux_zero]
    exact ⟨hInv, by simp [failResult]⟩
  | succ k ih =>
    intro st a n w tr hInv
    rcases hstep : attemptStep (attempts a) st tr with ⟨ob, st1, tr1⟩
    cases ob with
    | some body =>
      obtain ⟨hlen, hst1, hgood1, hmem⟩ :=
        attemptStep_some _ _ _ _ _ _ hInv.2.1 hstep
      rw [downloadLoopAux_succ_some attempts k st a n w tr body st1 tr1 hstep]
      subst hst1
      exact ⟨⟨rfl, hgood1, Or.inr ⟨body, hlen, hmem, rfl⟩⟩,
        fun _ => ⟨body, hlen, rfl⟩⟩
    | none =>
      have hInv1 : Inv F st1 tr1 := attemptStep_none _ _ _ _ _ _ hInv hstep
      cases k with
      | zero =>
        rw [downloadLoopAux_one_none attempts st a n w tr st1 tr1 hstep]
        exact ⟨hInv1, by simp [failResult]⟩
      | succ k' =>
        rw [downloadLoopAux_succ2_none attempts k' st a n w tr st1 tr1 hstep]
        exact ih st1 (a + 1) (n + 1) (w ++ [2 ^ (a + 1)]) tr1 hInv1

/-- Counter lemma about the retry loop: it never touches the skipped
counter, and it increments exactly the counter matching its boolean
result. -/
theorem downloadLoopAux_counters (attempts : Nat → Attempt) :
    ∀ (k : Nat) (st : FileState) (a n : Nat) (w : List Nat)
      (tr : List FsEvent),
      (downloadLoopAux attempts k st a n w tr).skippedInc = 0 ∧
      ((downloadLoopAux attempts k st a n w tr).success = true →
        (downloadLoopAux attempts k st a n w tr).downloadedInc = 1 ∧
        (downloadLoopAux attempts k st a n w tr).failedInc = 0) ∧
      ((downloadLoopAux attempts k st a n w tr).success = false →
        (downloadLoopAux attempts k st a n w tr).downloadedInc = 0 ∧
        (downloadLoopAux attempts k st a n w tr).failedInc = 1) := by
  intro k
  induction k with
  | zero =>
    intro st a n w tr
    rw [downloadLoopAux_zero]
    simp [failResult]
  | succ k ih =>
    intro st a n w tr
    rcases hstep : attemptStep (attempts a) st tr with ⟨ob, st1, tr1⟩
    cases ob with
    | some body =>
      rw [downloadLoopAux_succ_some attempts k st a n w tr body st1 tr1 hstep]
      simp
    | none =>
      cases k with
      | zero =>
        rw [downloadLoopAux_one_none attempts st a n w tr st1 tr1 hstep]
        simp [failResult]
      | succ k' =>
        rw [downloadLoopAux_succ2_none attempts k' st a n w tr st1 tr1 hstep]
        exact ih st1 (a + 1) (n + 1) (w ++ [2 ^ (a + 1)]) tr1

/-- A failing attempt outcome makes `attemptStep` write nothing to the
final path. -/
theorem attemptFails_step (a : Attempt) (st : FileState) (tr : List FsEvent)
    (h : attemptFails a = true) :
    ∃ st1 tr1, attemptStep a st tr = (none, st1, tr1) := by
  cases a with
  | exn => exact ⟨st, tr, rfl⟩
  | resp status body =>
    simp only [attemptFails] at h
    by_cases h200 : status = 200
    · rw [if_pos h200] at h
      have hlen : ¬ MIN_SIZE < body.length := by simpa using h
      refine ⟨{ st with tempFile := none },
        tr ++ [FsEvent.mkdirParent, FsEvent.writeTemp body,
               FsEvent.unlinkTemp], ?_⟩
      simp only [attemptStep]
      rw [if_pos h200, if_neg hlen]
    · refine ⟨st, tr, ?_⟩
      simp only [attemptStep]
      rw [if_neg h200]

/-- When every attempt the guard still allows fails, the loop runs all
`k` of them and exits as failed, having slept `2 ^ i` time units for
every counter value `i` strictly between the first and the last
attempt's counters (no sleep after the final attempt). -/
theorem downloadLoopAux_all_fail (attempts : Nat → Attempt) :
    ∀ (k : Nat) (st : FileState) (a n : Nat) (w : List Nat)
      (tr : List FsEvent), 0 < k →
      (∀ i, a ≤ i → i < a + k → attemptFails (attempts i) = true) →
      ∃ st1 tr1,
        downloadLoopAux attempts k st a n w tr =
          failResult st1 (n + k)
            (w ++ (List.range' (a + 1) (k - 1)).map (fun i => 2 ^ i)) tr1 := by
  intro k
  induction k with
  | zero =>
    intro st a n w tr h0
    omega
  | succ k ih =>
    intro st a n w tr _ hfail
    have hf0 : attemptFails (attempts a) = true := hfail a le_rfl (by omega)
    obtain ⟨st1, tr1, hstep⟩ := attemptFails_step (attempts a) st tr hf0
    cases k with
    | zero =>
      rw [downloadLoopAux_one_none attempts st a n w tr st1 tr1 hstep]
      exact ⟨st1, tr1, by simp [List.range']⟩
    | succ k' =>
      rw [downloadLoopAux_succ2_none attempts k' st a n w tr st1 tr1 hstep]
      obtain ⟨st2, tr2, hres⟩ := ih st1 (a + 1) (n + 1) (w ++ [2 ^ (a + 1)])
        tr1 (by omega) (fun i h1 h2 => hfail i (by omega) (by omega))
      refine ⟨st2, tr2, ?_⟩
      rw [hres]
      have hn : n + 1 + (k' + 1) = n + (k' + 1 + 1) := by omega
      have hw : (w ++ [2 ^ (a + 1)]) ++
          (List.range' (a + 1 + 1) (k' + 1 - 1)).map (fun i => 2 ^ i) =
          w ++ (List.range' (a + 1) (k' + 1 + 1 - 1)).map (fun i => 2 ^ i) := by
        rw [List.append_assoc]
        simp only [Nat.add_sub_cancel, List.range'_succ, List.map_cons,
          List.singleton_append]
      rw [hn, hw]

/-- The loop's attempt count never drops below the count it starts at. -/
theorem downloadLoopAux_attempts_ge (attempts : Nat → Attempt) :
    ∀ (k : Nat) (st : FileState) (a n : Nat) (w : List Nat)
      (tr : List FsEvent),
      n ≤ (downloadLoopAux attempts k st a n w tr).attemptsMade := by
  intro k
  induction k with
  | zero =>
    intro st a n w tr
    rw [downloadLoopAux_zero]
    exact le_rfl
  | succ k ih =>
    intro st a n w tr
    rcases hstep : attemptStep (attempts a) st tr with ⟨ob, st1, tr1⟩
    cases ob with
    | some body =>
      rw [downloadLoopAux_succ_some attempts k st a n w tr body st1 tr1 hstep]
      exact Nat.le_succ n
    | none =>
      cases k with
      | zero =>
        rw [downloadLoopAux_one_none attempts st a n w tr st1 tr1 hstep]
        exact Nat.le_succ n
      | succ k' =>
        rw [downloadLoopAux_succ2_none attempts k' st a n w tr st1 tr1 hstep]
        exact le_trans (Nat.le_succ n)
          (ih st1 (a + 1) (n + 1) (w ++ [2 ^ (a + 1)]) tr1)

/-- A loop whose guard allows at least one iteration makes at least one
GET attempt. -/
theorem downloadLoopAux_attempts_pos (attempts : Nat → Attempt) (k : Nat)
    (st : FileState) (a n : Nat) (w : List Nat) (tr : List FsEvent)
    (hk : 0 < k) :
    n + 1 ≤ (downloadLoopAux attempts k st a n w tr).attemptsMade := by
  cases k with
  | zero => omega
  | succ k =>
    rcases hstep : attemptStep (attempts a) st tr with ⟨ob, st1, tr1⟩
    cases ob with
    | some body =>
      rw [downloadLoopAux_succ_some attempts k st a n w tr body st1 tr1 hstep]
    | none =>
      cases k with
      | zero =>
        rw [downloadLoopAux_one_none attempts st a n w tr st1 tr1 hstep]
        exact Nat.le_refl _
      | succ k' =>
        rw [downloadLoopAux_succ2_none attempts k' st a n w tr st1 tr1 hstep]
        exact downloadLoopAux_attempts_ge attempts (k' + 1) st1 (a + 1)
          (n + 1) (w ++ [2 ^ (a + 1)]) tr1

/-- C1. For every download task whose every attempt fails (transport
exception, non-200 status, or body at or below 1024 bytes) and whose
destination holds no valid pre-existing file (the loop runs),
`fetch_download_image` makes exactly 5 GET attempts, sleeping 2, 4, 8
and 16 time units between consecutive attempts and not after the 5th,
then returns failure and increments only the failed counter, once; a 6th
attempt is never made. -/
theorem fetch_download_image_retry_bound (existing : Option Bytes)
    (attempts : Nat → Attempt)
    (hex : ∀ c, existing = some c → c.length ≤ MIN_SIZE)
    (hfail : ∀ i, i < max_retries → attemptFails (attempts i) = true) :
    (fetch_download_image existing attempts).attemptsMade = 5 ∧
    (fetch_download_image existing attempts).waits = [2, 4, 8, 16] ∧
    (fetch_download_image existing attempts).success = false ∧
    (fetch_download_image existing attempts).failedInc = 1 ∧
    (fetch_download_image existing attempts).downloadedInc = 0 := by
  have hrun : ∃ st0 : FileState, fetch_download_image existing attempts =
      downloadLoopAux attempts max_retries st0 0 0 [] [] := by
    cases existing with
    | none => exact ⟨⟨none, none⟩, rfl⟩
    | some c =>
      have hc := hex c rfl
      simp only [fetch_download_image]
      rw [if_neg (by omega)]
      exact ⟨⟨some c, none⟩, rfl⟩
  obtain ⟨st0, hrun⟩ := hrun
  obtain ⟨st1, tr1, hres⟩ := downloadLoopAux_all_fail attempts max_retries
    st0 0 0 [] [] (by norm_num [max_retries])
    (fun i _ h2 => hfail i (by simpa using h2))
  rw [hrun, hres]
  exact ⟨rfl, rfl, rfl, rfl, rfl⟩

theorem fetch_download_image_retry_bound_witness :
    (fetch_download_image none (fun _ => Attempt.exn)).attemptsMade = 5 ∧
    (fetch_download_image none (fun _ => Attempt.exn)).waits = [2, 4, 8, 16] ∧
    (fetch_download_image none (fun _ => Attempt.exn)).success = false ∧
    (fetch_download_image none (fun _ => Attempt.exn)).failedInc = 1 ∧
    (fetch_download_image none (fun _ => Attempt.exn)).downloadedInc = 0 :=
  fetch_download_image_retry_bound none (fun _ => Attempt.exn)
    (fun _ h => Option.noConfusion h) (fun _ _ => rfl)

/-- C2. The final destination path only ever receives content through a
rename of a fully written temporary sibling whose size strictly exceeds
1024 bytes: every rename in the trace moves a validated body, no
temporary file survives the call (undersized bodies are unlinked), the
destination content is either the pre-existing one or a body some
recorded rename put there, and a successful return means a validated
body sits at the destination. In particular a failed attempt never
overwrites the destination. -/
theorem fetch_download_image_atomic_write (existing : Option Bytes)
    (attempts : Nat → Attempt) :
    (∀ c, FsEvent.renameTempToFinal c ∈
        (fetch_download_image existing attempts).trace →
      MIN_SIZE < c.length) ∧
    (fetch_download_image existing attempts).state.tempFile = none ∧
    ((fetch_download_image existing attempts).state.finalFile = existing ∨
      ∃ c, MIN_SIZE < c.length ∧
        FsEvent.renameTempToFinal c ∈
          (fetch_download_image existing attempts).trace ∧
        (fetch_download_image existing attempts).state.finalFile = some c) ∧
    ((fetch_download_image existing attempts).success = true →
      ∃ c, MIN_SIZE < c.length ∧
        (fetch_download_image existing attempts).state.finalFile = some c) := by
  have hnil : GoodTrace ([] : List FsEvent) := fun c hc => absurd hc (by simp)
  cases existing with
  | none =>
    have h := downloadLoopAux_inv attempts none max_retries ⟨none, none⟩
      0 0 [] [] ⟨rfl, hnil, Or.inl rfl⟩
    exact ⟨h.1.2.1, h.1.1, h.1.2.2, h.2⟩
  | some content =>
    by_cases hlen : MIN_SIZE < content.length
    · simp only [fetch_download_image]
      rw [if_pos hlen]
      refine ⟨fun c hc => absurd hc (by simp), rfl, Or.inl rfl,
        fun _ => ⟨content, hlen, rfl⟩⟩
    · have hrw : fetch_download_image (some content) attempts =
          downloadLoopAux attempts max_retries ⟨some content, none⟩
            0 0 [] [] := by
        simp only [fetch_download_image]
        rw [if_neg hlen]
      rw [hrw]
      have h := downloadLoopAux_inv attempts (some content) max_retries
        ⟨some content, none⟩ 0 0 [] [] ⟨rfl, hnil, Or.inl rfl⟩
      exact ⟨h.1.2.1, h.1.1, h.1.2.2, h.2⟩

/-- C3. A destination file already holding strictly more than 1024 bytes
short-circuits the download: the call returns success with zero network
attempts, no filesystem event, the file content unchanged, and counts
the task as downloaded. A destination file at or below 1024 bytes is
treated as corrupt: the attempt loop runs and at least one GET attempt
is made. -/
theorem fetch_download_image_existence_shortcircuit (content : Bytes)
    (attempts : Nat → Attempt) :
    (MIN_SIZE < content.length →
      fetch_download_image (some content) attempts =
        { success := true,
          state := { finalFile := some content, tempFile := none },
          attemptsMade := 0, waits := [], trace := [],
          downloadedInc := 1, failedInc := 0, skippedInc := 0 }) ∧
    (content.length ≤ MIN_SIZE →
      1 ≤ (fetch_download_image (some content) attempts).attemptsMade) := by
  constructor
  · intro hlen
    simp only [fetch_download_image]
    rw [if_pos hlen]
  · intro hlen
    have hrw : fetch_download_image (some content) attempts =
        downloadLoopAux attempts max_retries ⟨some content, none⟩
          0 0 [] [] := by
      simp only [fetch_download_image]
      rw [if_neg (by omega)]
    rw [hrw]
    exact downloadLoopAux_attempts_pos attempts max_retries
      ⟨some content, none⟩ 0 0 [] [] (by norm_num [max_retries])

/-- Counter behaviour of one `fetch_download_image` call: the skipped
counter is never touched, and exactly the counter matching the boolean
result is incremented. -/
theorem fetch_download_image_counters (existing : Option Bytes)
    (attempts : Nat → Attempt) :
    (fetch_download_image existing attempts).skippedInc = 0 ∧
    ((fetch_download_image existing attempts).success = true →
      (fetch_download_image existing attempts).downloadedInc = 1 ∧
      (fetch_download_image existing attempts).failedInc = 0) ∧
    ((fetch_download_image existing attempts).success = false →
      (fetch_download_image existing attempts).downloadedInc = 0 ∧
      (fetch_download_image existing attempts).failedInc = 1) := by
  cases existing with
  | none =>
    exact downloadLoopAux_counters attempts max_retries ⟨none, none⟩ 0 0 [] []
  | some content =>
    by_cases hlen : MIN_SIZE < content.length
    · simp only [fetch_download_image]
      rw [if_pos hlen]
      simp
    · have hrw : fetch_download_image (some content) attempts =
          downloadLoopAux attempts max_retries ⟨some content, none⟩
            0 0 [] [] := by
        simp only [fetch_download_image]
        rw [if_neg hlen]
      rw [hrw]
      exact downloadLoopAux_counters attempts max_retries
        ⟨some content, none⟩ 0 0 [] []

/-- One task, one terminal outcome: each call increments exactly one of
the downloaded and failed counters, exactly once. -/
theorem fetch_download_image_terminal (existing : Option Bytes)
    (attempts : Nat → Attempt) :
    (fetch_download_image existing attempts).downloadedInc +
      (fetch_download_image existing attempts).failedInc = 1 := by
  have h := fetch_download_image_counters existing attempts
  cases hsucc : (fetch_download_image existing attempts).success with
  | false =>
    have := h.2.2 hsucc
    omega
  | true =>
    have := h.2.1 hsucc
    omega

/-- The environment of one download task in `self.dl` / `self.sp`: the
pre-existing content at its destination path and the outcomes of its GET
attempts. Destination paths are unique within a run, so each task's
filesystem cell is independent of the others. -/
structure TaskEnv where
  existing : Option Bytes
  attempts : Nat → Attempt

/-- The `session_stats` counters of `HighTechWebtoonDownloader.__init__`
(the `start_time` entry is wall-clock time, outside the model). -/
structure SessionStats where
  images_downloaded : Nat
  images_skipped : Nat
  failed_downloads : Nat
deriving DecidableEq

/-- `session_stats` as `__init__` creates it: all counters zero. -/
def init_session_stats : SessionStats :=
  { images_downloaded := 0, images_skipped := 0, failed_downloads := 0 }

/-- Applying the counter increments of one finished task to the shared
`session_stats` (each `+=` in the code is a single atomic increment of
one counter). -/
def applyResult (s : SessionStats) (r : RunResult) : SessionStats :=
  { images_downloaded := s.images_downloaded + r.downloadedInc,
    images_skipped := s.images_skipped + r.skippedInc,
    failed_downloads := s.failed_downloads + r.failedInc }

/-- The per-task results of a run over the zipped `(url, fp)` task list
(`asyncio.gather` collects every task's result; each task's outcome
depends only on its own environment). -/
def results_of (tasks : List TaskEnv) : List RunResult :=
  tasks.map (fun t => fetch_download_image t.existing t.attempts)

/-- `HighTechWebtoonDownloader.download_all_images`: every task in the
list is driven to its terminal state (gather never abandons a subset)
and each terminal outcome applies its counter increments to
`session_stats`; counter increments are atomic single adds, so the final
counters are the same for every interleaving and equal this fold. -/
def download_all_images (s0 : SessionStats) (tasks : List TaskEnv) :
    SessionStats :=
  tasks.foldl
    (fun s t => applyResult s (fetch_download_image t.existing t.attempts)) s0

/-- What `HighTechWebtoonDownloader.print_stats` displays: the
downloaded, skipped (read with `.get('images_skipped', 0)`) and failed
counters, and `total_processed = images_downloaded + failed_downloads`. -/
structure StatsReport where
  downloaded : Nat
  skipped : Nat
  failed : Nat
  total_processed : Nat
deriving DecidableEq

/-- `HighTechWebtoonDownloader.print_stats` (elapsed time and download
speed are wall-clock quantities, outside the model). -/
def print_stats (s : SessionStats) : StatsReport :=
  { downloaded := s.images_downloaded,
    skipped := s.images_skipped,
    failed := s.failed_downloads,
    total_processed := s.images_downloaded + s.failed_downloads }

theorem download_all_images_cons (s0 : SessionStats) (t : TaskEnv)
    (ts : List TaskEnv) :
    download_all_images s0 (t :: ts) =
      download_all_images
        (applyResult s0 (fetch_download_image t.existing t.attempts)) ts := rfl

theorem download_all_images_downloaded (tasks : List TaskEnv) :
    ∀ s0 : SessionStats,
    (download_all_images s0 tasks).images_downloaded =
      s0.images_downloaded +
        ((results_of tasks).filter (fun r => r.success)).length := by
  induction tasks with
  | nil =>
    intro s0
    simp [download_all_images, results_of]
  | cons t ts ih =>
    intro s0
    rw [download_all_images_cons, ih]
    have hcnt := fetch_download_image_counters t.existing t.attempts
    simp only [results_of, List.map_cons, List.filter_cons]
    cases hsucc : (fetch_download_image t.existing t.attempts).success with
    | false =>
      have hd := (hcnt.2.2 hsucc).1
      simp only [hsucc, applyResult]
      simp [results_of, hd]
    | true =>
      have hd := (hcnt.2.1 hsucc).1
      simp only [hsucc, applyResult]
      simp [results_of, hd]
      omega

theorem download_all_images_failed (tasks : List TaskEnv) :
    ∀ s0 : SessionStats,
    (download_all_images s0 tasks).failed_downloads =
      s0.failed_downloads +
        ((results_of tasks).filter (fun r => !r.success)).length := by
  induction tasks with
  | nil =>
    intro s0
    simp [download_all_images, results_of]
  | cons t ts ih =>
    intro s0
    rw [download_all_images_cons, ih]
    have hcnt := fetch_download_image_counters t.existing t.attempts
    simp only [results_of, List.map_cons, List.filter_cons]
    cases hsucc : (fetch_download_image t.existing t.attempts).success with
    | false =>
      have hf := (hcnt.2.2 hsucc).2
      simp only [hsucc, applyResult]
      simp [results_of, hf]
      omega
    | true =>
      have hf := (hcnt.2.1 hsucc).2
      simp only [hsucc, applyResult]
      simp [results_of, hf]

theorem download_all_images_skipped (tasks : List TaskEnv) :
    ∀ s0 : SessionStats,
    (download_all_images s0 tasks).images_skipped = s0.images_skipped := by
  induction tasks with
  | nil =>
    intro s0
    rfl
  | cons t ts ih =>
    intro s0
    rw [download_all_images_cons, ih]
    have hsk := (fetch_download_image_counters t.existing t.attempts).1
    simp [applyResult, hsk]

theorem length_filter_bool_split (rs : List RunResult) :
    (rs.filter (fun r => r.success)).length +
      (rs.filter (fun r => !r.success)).length = rs.length := by
  induction rs with
  | nil => rfl
  | cons r rs ih =>
    cases hsucc : r.success with
    | false =>
      simp [List.filter_cons, hsucc]
      omega
    | true =>
      simp [List.filter_cons, hsucc]
      omega

/-- A successful `fetch_download_image` call leaves a validated (larger
than 1024 bytes) file at the destination path. -/
theorem fetch_download_image_success_file (existing : Option Bytes)
    (attempts : Nat → Attempt) :
    (fetch_download_image existing attempts).success = true →
      ∃ c, MIN_SIZE < c.length ∧
        (fetch_download_image existing attempts).state.finalFile = some c := by
  have hnil : GoodTrace ([] : List FsEvent) := fun c hc => absurd hc (by simp)
  cases existing with
  | none =>
    exact (downloadLoopAux_inv attempts none max_retries ⟨none, none⟩
      0 0 [] [] ⟨rfl, hnil, Or.inl rfl⟩).2
  | some content =>
    by_cases hlen : MIN_SIZE < content.length
    · simp only [fetch_download_image]
      rw [if_pos hlen]
      exact fun _ => ⟨content, hlen, rfl⟩
    · have hrw : fetch_download_image (some content) attempts =
          downloadLoopAux attempts max_retries ⟨some content, none⟩
            0 0 [] [] := by
        simp only [fetch_download_image]
        rw [if_neg hlen]
      rw [hrw]
      exact (downloadLoopAux_inv attempts (some content) max_retries
        ⟨some content, none⟩ 0 0 [] [] ⟨rfl, hnil, Or.inl rfl⟩).2

/-- C4. `download_all_images` drives every task of the discovered list to
a terminal state without short-circuiting on failures: one result per
task, each task increments exactly one of the downloaded/failed counters
exactly once, the final downloaded counter is the number of successful
tasks and the failed counter the number of failed ones (they sum to the
task count), and every successful task has a validated file at its
destination. For a 10-task run with exactly one permanent failure this
gives `downloaded = 9`, `failed = 1`, with all 9 files present. -/
theorem download_all_images_terminal_counts (tasks : List TaskEnv) :
    (results_of tasks).length = tasks.length ∧
    (∀ r ∈ results_of tasks,
      r.downloadedInc + r.failedInc = 1 ∧ r.skippedInc = 0) ∧
    (download_all_images init_session_stats tasks).images_downloaded =
      ((results_of tasks).filter (fun r => r.success)).length ∧
    (download_all_images init_session_stats tasks).failed_downloads =
      ((results_of tasks).filter (fun r => !r.success)).length ∧
    (download_all_images init_session_stats tasks).images_downloaded +
      (download_all_images init_session_stats tasks).failed_downloads =
        tasks.length ∧
    (∀ r ∈ results_of tasks, r.success = true →
      ∃ c, MIN_SIZE < c.length ∧ r.state.finalFile = some c) := by
  have hd : (download_all_images init_session_stats tasks).images_downloaded
      = ((results_of tasks).filter (fun r => r.success)).length := by
    simpa [init_session_stats] using
      download_all_images_downloaded tasks init_session_stats
  have hf : (download_all_images init_session_stats tasks).failed_downloads
      = ((results_of tasks).filter (fun r => !r.success)).length := by
    simpa [init_session_stats] using
      download_all_images_failed tasks init_session_stats
  refine ⟨List.length_map _ _, ?_, hd, hf, ?_, ?_⟩
  · intro r hr
    obtain ⟨t, _, rfl⟩ := List.mem_map.mp hr
    exact ⟨fetch_download_image_terminal t.existing t.attempts,
      (fetch_download_image_counters t.existing t.attempts).1⟩
  · have hsplit := length_filter_bool_split (results_of tasks)
    have hlen : (results_of tasks).length = tasks.length :=
      List.length_map _ _
    omega
  · intro r hr
    obtain ⟨t, _, rfl⟩ := List.mem_map.mp hr
    exact fetch_download_image_success_file t.existing t.attempts

/-- A demonstration run of 10 tasks in which task number 4 fails
permanently (no pre-existing file, every attempt a transport exception)
and the other 9 succeed through the existence short-circuit. -/
def demoTasks : List TaskEnv :=
  (List.range 10).map (fun i =>
    if i = 4 then { existing := none, attempts := fun _ => Attempt.exn }
    else { existing := some (List.replicate 1025 0),
           attempts := fun _ => Attempt.exn })

set_option maxRecDepth 100000 in
theorem download_all_images_terminal_counts_witness :
    (download_all_images init_session_stats demoTasks).images_downloaded +
        (download_all_images init_session_stats demoTasks).failed_downloads =
      demoTasks.length ∧
    (download_all_images init_session_stats demoTasks).images_downloaded = 9 ∧
    (download_all_images init_session_stats demoTasks).failed_downloads = 1 := by
  refine ⟨(download_all_images_terminal_counts demoTasks).2.2.2.2.1, ?_, ?_⟩
  · rw [(download_all_images_terminal_counts demoTasks).2.2.1]
    decide
  · rw [(download_all_images_terminal_counts demoTasks).2.2.2.1]
    decide

/-- C10. The `images_skipped` counter stays 0 from `__init__` through the
final `print_stats` report: nothing increments it over any run, and a
task short-circuited by the existence check is counted by incrementing
`images_downloaded` instead. -/
theorem images_skipped_never_incremented (tasks : List TaskEnv) :
    init_session_stats.images_skipped = 0 ∧
    (download_all_images init_session_stats tasks).images_skipped = 0 ∧
    (print_stats (download_all_images init_session_stats tasks)).skipped
      = 0 ∧
    (∀ content : Bytes, ∀ att : Nat → Attempt, MIN_SIZE < content.length →
      (fetch_download_image (some content) att).downloadedInc = 1 ∧
      (fetch_download_image (some content) att).skippedInc = 0) := by
  refine ⟨rfl, ?_, ?_, ?_⟩
  · rw [download_all_images_skipped]
    rfl
  · simp only [print_stats]
    rw [download_all_images_skipped]
    rfl
  · intro content att hlen
    have hrw : fetch_download_image (some content) att =
        { success := true,
          state := { finalFile := some content, tempFile := none },
          attemptsMade := 0, waits := [], trace := [],
          downloadedInc := 1, failedInc := 0, skippedInc := 0 } := by
      simp only [fetch_download_image]
      rw [if_pos hlen]
    rw [hrw]
    exact ⟨rfl, rfl⟩

/-! ## Discovery: `fetch_url`, `extract_episode_data`,
`main_download_process` episode range -/

/-- An `img` element found inside the episode container, with its
optional `src` attribute (`img.get('src')`). -/
structure Img where
  src : Option String
deriving DecidableEq

/-- Parsed content of a fetched episode page: the structural selector
`body > div:nth-of-type(1) > div:nth-of-type(3) > div:nth-of-type(1)`
either finds the container `div` (holding its `img` descendants in
document order) or finds nothing. -/
structure PageContent where
  container : Option (List Img)
deriving DecidableEq

/-- Outcome of `client.get(url)` inside `fetch_url`: a transport
exception or a response with a status code and parsed text. -/
inductive FetchResult where
  | exn : FetchResult
  | resp (status : Nat) (text : PageContent) : FetchResult
deriving DecidableEq

/-- `HighTechWebtoonDownloader.fetch_url`: one attempt, returning the
page text only on status 200; an exception is caught and logged, and any
other outcome yields `None`. -/
def fetch_url : FetchResult → Option PageContent
  | FetchResult.exn => none
  | FetchResult.resp status text => if status = 200 then some text else none

/-- Python's `range(a, b)` over integers: `a, a + 1, …, b - 1`, empty
when `b ≤ a`. -/
def pyRange (a b : Int) : List Int :=
  (List.range (b - a).toNat).map (fun (i : Nat) => a + (i : Int))

/-- The detail-page URL built for episode `cur` in
`extract_episode_data`. -/
def episode_url (comic_id cur : Int) : String :=
  "https://comic.naver.com/webtoon/detail?titleId=" ++ toString comic_id ++
    "&no=" ++ toString cur

/-- The URLs `extract_episode_data(comic_id, start, end, …)` fetches:
one per episode of `range(start, end)`, in order. -/
def episode_urls (comic_id start e : Int) : List String :=
  (pyRange start e).map (episode_url comic_id)

/-- The image URLs collected from the container's `img` tags, in
document order: `src = img.get('src')` is kept when
`isinstance(src, str) and src` (present and non-empty). -/
def img_links_of (imgs : List Img) : List String :=
  imgs.filterMap (fun img =>
    match img.src with
    | some s => if s = "" then none else some s
    | none => none)

/-- `img_folder = Path(full_path) / str(cur)`. -/
def img_folder (full_path : String) (cur : Int) : String :=
  full_path ++ "/" ++ toString cur

/-- The destination `str(img_folder / f'{e}.jpg')` for the `e`-th image
of episode `cur`. -/
def save_path (full_path : String) (cur : Int) (e : Nat) : String :=
  img_folder full_path cur ++ "/" ++ toString e ++ ".jpg"

/-- The growing discovery state: the downloader's `self.dl` (image URLs)
and `self.sp` (save paths), plus the episode folders created by
`img_folder.mkdir(exist_ok=True)`, in creation order. -/
structure DiscoveryState where
  dl : List String
  sp : List String
  mkdirs : List String
deriving DecidableEq

/-- The per-episode body of `extract_episode_data`'s processing loop
(`for cur, content in zip(range(start, end), responses)`): a missing
response (`if content` false) or a missing container (`if div` false)
leaves the state untouched; otherwise the image links extend `self.dl`,
the episode folder is created, and the save paths `0.jpg … (n-1).jpg`
extend `self.sp`. -/
def process_episode (full_path : String) (st : DiscoveryState) (cur : Int)
    (content : Option PageContent) : DiscoveryState :=
  match content with
  | none => st
  | some page =>
    match page.container with
    | none => st
    | some imgs =>
      let img_links := img_links_of imgs
      { dl := st.dl ++ img_links,
        sp := st.sp ++
          (List.range img_links.length).map (save_path full_path cur),
        mkdirs := st.mkdirs ++ [img_folder full_path cur] }

/-- `HighTechWebtoonDownloader.extract_episode_data(comic_id, start, end,
full_path)`: the pages of episodes `range(start, end)` are fetched
concurrently, but `asyncio.gather` returns the responses in argument
order and the processing loop zips them back with `range(start, end)`,
so the state is built in ascending episode order regardless of fetch
completion order; `net` answers the page fetch of each episode. -/
def extract_episode_data (start e : Int) (full_path : String)
    (net : Int → FetchResult) : DiscoveryState :=
  (pyRange start e).foldl
    (fun st cur => process_episode full_path st cur (fetch_url (net cur)))
    { dl := [], sp := [], mkdirs := [] }

/-- The episode numbers discovery iterates for a run parameterized by
`start` and `e`: `main_download_process` calls
`extract_episode_data(comic_id, start, end + 1, full_path)`, which
iterates `range(start, end + 1)`. -/
def main_process_episodes (start e : Int) : List Int := pyRange start (e + 1)

/-- The aggregated `(url, save path)` task list of a discovery run: the
pairs `zip(self.dl, self.sp)` that `download_all_images` consumes. -/
def discovery_tasks (start e : Int) (full_path : String)
    (net : Int → FetchResult) : List (String × String) :=
  (extract_episode_data start e full_path net).dl.zip
    (extract_episode_data start e full_path net).sp

/-- The image links episode `cur` yields under environment `net` (empty
when the fetch fails or the container is absent). -/
def links_of (net : Int → FetchResult) (cur : Int) : List String :=
  match fetch_url (net cur) with
  | none => []
  | some page =>
    match page.container with
    | none => []
    | some imgs => img_links_of imgs

/-- The `(url, save path)` pairs episode `cur` contributes: its links
zipped with `0.jpg … (n-1).jpg`. -/
def episode_tasks (full_path : String) (net : Int → FetchResult)
    (cur : Int) : List (String × String) :=
  (links_of net cur).zip
    ((List.range (links_of net cur).length).map (save_path full_path cur))

/-- The folder episode `cur` creates, if any: exactly the episodes whose
page arrives and has the structural container run `mkdir`. -/
def episode_mkdir (full_path : String) (net : Int → FetchResult)
    (cur : Int) : Option String :=
  match fetch_url (net cur) with
  | none => none
  | some page =>
    match page.container with
    | none => none
    | some _ => some (img_folder full_path cur)

theorem mem_pyRange (a b k : Int) : k ∈ pyRange a b ↔ a ≤ k ∧ k < b := by
  constructor
  · intro hk
    obtain ⟨i, hi, hik⟩ := List.mem_map.mp hk
    rw [List.mem_range] at hi
    omega
  · rintro ⟨h1, h2⟩
    exact List.mem_map.mpr
      ⟨(k - a).toNat, List.mem_range.mpr (by omega), by omega⟩

theorem process_episode_dl_sp (full_path : String) (st : DiscoveryState)
    (cur : Int) (net : Int → FetchResult) :
    (process_episode full_path st cur (fetch_url (net cur))).dl =
        st.dl ++ links_of net cur ∧
    (process_episode full_path st cur (fetch_url (net cur))).sp =
        st.sp ++ (List.range (links_of net cur).length).map
          (save_path full_path cur) ∧
    (process_episode full_path st cur (fetch_url (net cur))).mkdirs =
        st.mkdirs ++ (episode_mkdir full_path net cur).toList := by
  rcases hf : fetch_url (net cur) with _ | page
  · simp [process_episode, links_of, episode_mkdir, hf]
  · rcases hc : page.container with _ | imgs
    · simp [process_episode, links_of, episode_mkdir, hf, hc]
    · simp [process_episode, links_of, episode_mkdir, hf, hc]

theorem extract_foldl_spec (full_path : String) (net : Int → FetchResult) :
    ∀ (eps : List Int) (st : DiscoveryState),
      st.dl.length = st.sp.length →
      (letI st' := eps.foldl
        (fun st cur => process_episode full_path st cur (fetch_url (net cur)))
        st
       st'.dl.zip st'.sp =
          st.dl.zip st.sp ++ eps.flatMap (episode_tasks full_path net) ∧
       st'.mkdirs = st.mkdirs ++
          eps.filterMap (episode_mkdir full_path net) ∧
       st'.dl.length = st'.sp.length) := by
  intro eps
  induction eps with
  | nil =>
    intro st hlen
    simp [hlen]
  | cons cur eps ih =>
    intro st hlen
    obtain ⟨hdl, hsp, hmk⟩ := process_episode_dl_sp full_path st cur net
    have hlen1 : (process_episode full_path st cur
        (fetch_url (net cur))).dl.length =
        (process_episode full_path st cur (fetch_url (net cur))).sp.length := by
      rw [hdl, hsp]
      simp [hlen]
    obtain ⟨ihz, ihm, ihl⟩ :=
      ih (process_episode full_path st cur (fetch_url (net cur))) hlen1
    refine ⟨?_, ?_, by simpa using ihl⟩
    · rw [List.foldl_cons] at *
      rw [ihz, hdl, hsp, List.zip_append hlen, List.flatMap_cons,
        List.append_assoc]
      rfl
    · rw [List.foldl_cons] at *
      rw [ihm, hmk, List.filterMap_cons]
      rcases hmkd : episode_mkdir full_path net cur with _ | f
      · simp
      · simp

theorem discovery_tasks_eq_flatMap (start e : Int) (fp : String)
    (net : Int → FetchResult) :
    discovery_tasks start e fp net =
      (pyRange start e).flatMap (episode_tasks fp net) := by
  simpa using
    (extract_foldl_spec fp net (pyRange start e) ⟨[], [], []⟩ rfl).1

/-- C5. Discovery processes exactly the episode numbers of the inclusive
interval `[start, e]`: `main_download_process` passes `end + 1` to
`extract_episode_data`, whose `range(start, end + 1)` contains an
episode number `k` exactly when `start ≤ k ≤ e`; in particular `e + 1`
is never fetched or processed. -/
theorem main_process_episodes_inclusive (start e k : Int) :
    (k ∈ main_process_episodes start e ↔ start ≤ k ∧ k ≤ e) ∧
    (e + 1) ∉ main_process_episodes start e := by
  have h1 := mem_pyRange start (e + 1) k
  have h2 := mem_pyRange start (e + 1) (e + 1)
  constructor
  · constructor
    · intro hk
      have := h1.mp hk
      omega
    · intro hk
      exact h1.mpr (by omega)
  · intro hk
    have := h2.mp hk
    omega

/-- C6. Naming determinism: the aggregated `(url, path)` task list is the
concatenation, in ascending episode-number order (`range(start, end)` is
ascending, and `asyncio.gather` hands back the page responses in episode
order, independently of which concurrent fetch completes first), of each
episode's links zipped with `0.jpg … (n-1).jpg`; within an episode the
`i`-th extracted URL is paired with `i.jpg`, in extraction (document)
order. -/
theorem discovery_naming_determinism (start e : Int) (fp : String)
    (net : Int → FetchResult) :
    discovery_tasks start e fp net =
      (pyRange start e).flatMap (episode_tasks fp net) ∧
    ∀ cur i, (episode_tasks fp net cur)[i]? =
      ((links_of net cur)[i]?).map (fun u => (u, save_path fp cur i)) := by
  refine ⟨discovery_tasks_eq_flatMap start e fp net, ?_⟩
  intro cur i
  rcases hl : (links_of net cur)[i]? with _ | u
  · have hlen : (links_of net cur).length ≤ i := by
      by_contra hlt
      push_neg at hlt
      rw [List.getElem?_eq_getElem hlt] at hl
      exact Option.noConfusion hl
    have hzlen : (episode_tasks fp net cur).length ≤ i := by
      rw [episode_tasks, List.length_zip, List.length_map,
        List.length_range]
      simpa using hlen
    rw [List.getElem?_eq_none hzlen]
    rfl
  · have hi : i < (links_of net cur).length := by
      by_contra hge
      push_neg at hge
      rw [List.getElem?_eq_none hge] at hl
      exact Option.noConfusion hl
    rw [show ((some u).map (fun u => (u, save_path fp cur i))) =
      some (u, save_path fp cur i) from rfl]
    apply List.getElem?_zip_eq_some.mpr
    refine ⟨hl, ?_⟩
    rw [List.getElem?_map, List.getElem?_range hi]
    rfl

/-- C8 counterexample: a one-episode run (`range(1, 2)`) whose page has
the structural container but zero `img` tags yields zero image URLs and
still creates the episode subfolder (`img_folder.mkdir` runs whenever
the container is found, before any image count check). -/
theorem extract_empty_episode_creates_folder :
    (extract_episode_data 1 2 "out"
      (fun _ => FetchResult.resp 200 ⟨some []⟩)).dl.length = 0 ∧
    (extract_episode_data 1 2 "out"
      (fun _ => FetchResult.resp 200 ⟨some []⟩)).mkdirs.length = 1 := by
  constructor
  · rfl
  · rfl

/-- C8 (amended). Discovery creates the episode output subfolder exactly
for the episodes whose page fetch succeeds with status 200 and whose
page has the structural container — even when the container yields zero
image URLs; episodes whose fetch fails or whose page lacks the container
leave no subfolder behind. -/
theorem extract_episode_data_mkdirs (start e : Int) (fp : String)
    (net : Int → FetchResult) :
    (extract_episode_data start e fp net).mkdirs =
      (pyRange start e).filterMap (episode_mkdir fp net) := by
  simpa using
    (extract_foldl_spec fp net (pyRange start e) ⟨[], [], []⟩ rfl).2.1

/-- C9. An episode whose page fetch fails (exception or non-200) or
whose page lacks the structural container contributes zero tasks and no
folder, and discovery still equals the concatenation of every episode's
own contribution over the whole range — the failure is absorbed by
`fetch_url` returning `None` (the exception is caught) and by the
`if div` guard, never propagated, so every remaining episode of the
range is processed. -/
theorem discovery_graceful_degradation (start e : Int) (fp : String)
    (net : Int → FetchResult) (j : Int)
    (hfail : fetch_url (net j) = none ∨
      ∃ p, fetch_url (net j) = some p ∧ p.container = none) :
    episode_tasks fp net j = [] ∧
    episode_mkdir fp net j = none ∧
    discovery_tasks start e fp net =
      (pyRange start e).flatMap (episode_tasks fp net) := by
  have hlinks : links_of net j = [] := by
    rcases hfail with h | ⟨p, hp, hc⟩
    · simp [links_of, h]
    · simp [links_of, hp, hc]
  refine ⟨?_, ?_, discovery_tasks_eq_flatMap start e fp net⟩
  · simp [episode_tasks, hlinks]
  · rcases hfail with h | ⟨p, hp, hc⟩
    · simp [episode_mkdir, h]
    · simp [episode_mkdir, hp, hc]

theorem discovery_graceful_degradation_witness :
    episode_tasks "out" (fun _ => FetchResult.exn) 3 = [] ∧
    episode_mkdir "out" (fun _ => FetchResult.exn) 3 = none ∧
    discovery_tasks 1 4 "out" (fun _ => FetchResult.exn) =
      (pyRange 1 4).flatMap
        (episode_tasks "out" (fun _ => FetchResult.exn)) :=
  discovery_graceful_degradation 1 4 "out" (fun _ => FetchResult.exn) 3
    (Or.inl rfl)

/-! ## Title resolution: `get_comic_title` -/

/-- The `og:title` meta tag of the listing page, with its optional
`content` attribute (`meta_tag.get('content')`). -/
structure MetaTag where
  content : Option String
deriving DecidableEq

/-- Parsed listing page:
`soup.find('meta', attrs={'property': 'og:title'})` either finds the tag
or not. -/
structure ListingPage where
  og_title : Option MetaTag
deriving DecidableEq

/-- Outcome of `requests.get(name_url)` in `get_comic_title`: a
transport-level exception, or a completed response with a status code
and parsed page. -/
inductive TitleFetch where
  | exn : TitleFetch
  | resp (status : Nat) (page : ListingPage) : TitleFetch
deriving DecidableEq

/-- The characters the pattern `[<>:"/\\|?*]` of `re.sub` matches. -/
def illegal_char (c : Char) : Bool :=
  c = '<' || c = '>' || c = ':' || c = '"' || c = '/' || c = '\\' ||
    c = '|' || c = '?' || c = '*'

/-- `re.sub(r'[<>:"/\\|?*]', '-', title_content)`: every matched
character becomes a dash. -/
def sanitize_title (s : String) : String :=
  String.mk (s.data.map (fun c => if illegal_char c then '-' else c))

/-- `HighTechWebtoonDownloader.get_comic_title`: a single `requests.get`
of the listing page with no surrounding try/except, so a transport-level
exception propagates out of the function (modelled as `Except.error`).
On status 200 with the meta tag found, the tag's `content` is sanitized
and returned; a found tag whose `content` attribute is absent makes
`re.sub` receive `None` and raise `TypeError` (also `Except.error`).
Every other completed outcome falls through to
`return f"comic_{comic_id}"`. -/
def get_comic_title (comic_id : Int) (fetch : TitleFetch) :
    Except Unit String :=
  match fetch with
  | TitleFetch.exn => Except.error ()
  | TitleFetch.resp status page =>
    if status = 200 then
      match page.og_title with
      | some tag =>
        match tag.content with
        | some title_content => Except.ok (sanitize_title title_content)
        | none => Except.error ()
      | none => Except.ok ("comic_" ++ toString comic_id)
    else Except.ok ("comic_" ++ toString comic_id)

/-- C7 counterexample: for comic id 12345 a transport-level fetch
failure does not produce the fallback title `comic_12345` — the
exception escapes `get_comic_title` uncaught (and `main_download_process`
calls it outside any handler), aborting the run before downloading. -/
theorem get_comic_title_exn_aborts :
    get_comic_title 12345 TitleFetch.exn = Except.error () ∧
    get_comic_title 12345 TitleFetch.exn ≠ Except.ok "comic_12345" := by
  constructor
  · rfl
  · intro h
    exact Except.noConfusion h

/-- C7 (amended). When the listing fetch completes, `get_comic_title`
returns the page title with every character of `<>:"/\|?*` replaced by
`-` if the status is 200 and the `og:title` tag carries a `content`
attribute, and the synthetic `comic_<id>` if the status is not 200 or
the tag is absent; but a transport-level exception during the fetch is
not caught and propagates to the caller (title resolution failure of
that kind does abort downloading), as does a found tag with no
`content` attribute. -/
theorem get_comic_title_spec (comic_id : Int) (status : Nat)
    (page : ListingPage) :
    (status = 200 → ∀ tag s, page.og_title = some tag →
      tag.content = some s →
      get_comic_title comic_id (TitleFetch.resp status page) =
        Except.ok (sanitize_title s)) ∧
    (status ≠ 200 →
      get_comic_title comic_id (TitleFetch.resp status page) =
        Except.ok ("comic_" ++ toString comic_id)) ∧
    (status = 200 → page.og_title = none →
      get_comic_title comic_id (TitleFetch.resp status page) =
        Except.ok ("comic_" ++ toString comic_id)) ∧
    (status = 200 → ∀ tag, page.og_title = some tag → tag.content = none →
      get_comic_title comic_id (TitleFetch.resp status page) =
        Except.error ()) ∧
    get_comic_title comic_id TitleFetch.exn = Except.error () := by
  refine ⟨?_, ?_, ?_, ?_, rfl⟩
  · intro h200 tag s htag hcontent
    simp [get_comic_title, h200, htag, hcontent]
  · intro h200
    simp [get_comic_title, h200]
  · intro h200 htag
    simp [get_comic_title, h200, htag]
  · intro h200 tag htag hcontent
    simp [get_comic_title, h200, htag, hcontent]

end Nava
